import Mathlib

/-!
Shallow embedding of the go-service lifecycle controller (service.go).

Modelling conventions:
* Go `error` values are modelled as `String` (`Option Err`, `none` = nil error).
* A registered service is data: its resolved display name (in Go derived via
  `%T` reflection or `fmt.Stringer`), whether it implements `Initer`, and the
  results its `Init` and `Run` calls return in the scenario under study.
* The Go context pair `runCtx` / `runCtxCancel` is modelled by two booleans
  recording whether the fields have been assigned (nil-ness), plus `cancelled`
  recording whether the cancel function has been invoked (the shared
  Cancellation Signal).
* The Go map `runContexts` is an insertion-ordered association list; keys are
  unique in every state reachable through the API.
* Goroutine bodies are modelled as explicit steps: `Container.runOne` launches
  a run (sets `running`, records the launch) and `Container.completeRun` is the
  goroutine body that executes when the service's `Run` returns.
* Panics are modelled by `Res.panic`; every operation returns the container
  state as it stands when the operation ends (normally or by panic).
* Ghost fields `initInvoked`, `runLaunched`, `dupRunContextHit` instrument the
  model with the order of `Init` invocations, the order of `Run` goroutine
  launches, and whether `initOne`'s defensive duplicate branch ever fired.
  They influence no behaviour.
-/

abbrev Err := String

/-- Result of an operation: normal return or Go panic. -/
inductive Res (α : Type) where
  | ok : α → Res α
  | panic : String → Res α
deriving DecidableEq, Repr

/-- The behavioural data of a registered `Runner` (service.go `genericService`
and arbitrary user services): resolved name, optional `Initer` capability, and
the outcomes of its `Init` / `Run` calls. -/
structure RunnerModel where
  name : String
  hasInit : Bool
  initErr : Option Err
  runErr : Option Err
deriving DecidableEq, Repr

/-- service.go `serviceInfo`: registry entry holding the resolved name and the
service itself. -/
structure serviceInfo where
  name : String
  service : RunnerModel
deriving DecidableEq, Repr

/-- service.go `runContext`: per-service Run Record. `doneSignaled` models that
a receive on the `done` channel completes immediately (a value was buffered or
the channel was closed). -/
structure runContext where
  service : serviceInfo
  running : Bool
  doneSignaled : Bool
  err : Option Err
deriving DecidableEq, Repr

/-- service.go `Container`. -/
structure Container where
  runCtxSet : Bool
  runCtxCancelSet : Bool
  cancelled : Bool
  services : List serviceInfo
  runContexts : List (String × runContext)
  initInvoked : List String
  runLaunched : List String
  dupRunContextHit : Bool
deriving DecidableEq, Repr

/-- service.go `NewContainer`. -/
def NewContainer : Container :=
  { runCtxSet := false
    runCtxCancelSet := false
    cancelled := false
    services := []
    runContexts := []
    initInvoked := []
    runLaunched := []
    dupRunContextHit := false }

/-- service.go `Default`: lazy process-wide singleton. The global variable
`defaultContainer` is passed and returned explicitly. -/
def Default (defaultContainer : Option Container) : Option Container × Container :=
  match defaultContainer with
  | none => (some NewContainer, NewContainer)
  | some c => (some c, c)

/-- Lookup in the `runContexts` map. -/
def lookupRC : List (String × runContext) → String → Option runContext
  | [], _ => none
  | p :: rest, n => if p.1 = n then some p.2 else lookupRC rest n

/-- Pointwise update of the record stored under a key (Go mutates the record
through a pointer; the map's key set is unchanged). -/
def updateRC (m : List (String × runContext)) (n : String) (f : runContext → runContext) :
    List (String × runContext) :=
  m.map (fun p => if p.1 = n then (p.1, f p.2) else p)

/-- service.go `Container.Register`: resolves the display name (modelled as the
`RunnerModel.name` field), panics on a duplicate, else appends a registry
entry. -/
def Container.Register (c : Container) (service : RunnerModel) : Container × Res Unit :=
  let name := service.name
  if c.services.any (fun s => s.name = name) then
    (c, Res.panic ("Service " ++ name ++ " already registered"))
  else
    ({ c with services := c.services ++ [{ name := name, service := service }] }, Res.ok ())

/-- service.go `newRunContext`. -/
def newRunContext (s : serviceInfo) : runContext :=
  { service := s, running := false, doneSignaled := false, err := none }

/-- service.go `Container.initOne`: create the Run Record (error if one already
exists under the name), then invoke `Init` if the service is an `Initer`; on
Init failure buffer a nil value on `done` (synthetic error-free completion) and
return the wrapped error. -/
def Container.initOne (c : Container) (s : serviceInfo) : Container × Option Err :=
  let runner := newRunContext s
  if (lookupRC c.runContexts s.name).isSome then
    ({ c with dupRunContextHit := true },
     some ("service " ++ s.name ++ " already started"))
  else
    let c := { c with runContexts := c.runContexts ++ [(s.name, runner)] }
    if s.service.hasInit then
      let c := { c with initInvoked := c.initInvoked ++ [s.name] }
      match s.service.initErr with
      | some cause =>
          let c := { c with
            runContexts := updateRC c.runContexts s.name
              (fun rc => { rc with doneSignaled := true }) }
          (c, some ("failed to init service " ++ s.name ++ ": " ++ cause))
      | none => (c, none)
    else
      (c, none)

/-- service.go `Container.StopAll`: panic if `StartAll` has not assigned the
cancel function, else invoke it (trigger the Cancellation Signal). -/
def Container.StopAll (c : Container) : Container × Res Unit :=
  if !c.runCtxCancelSet then
    (c, Res.panic "call Container.StartAll() before StopAll()")
  else
    ({ c with cancelled := true }, Res.ok ())

/-- service.go `Container.runOne`: error if the record is missing or already
running, else flip `running` and launch the Run goroutine (the goroutine body
is `Container.completeRun`). -/
def Container.runOne (c : Container) (s : serviceInfo) : Container × Option Err :=
  match lookupRC c.runContexts s.name with
  | none => (c, some ("service " ++ s.name ++ " not initialized"))
  | some runner =>
    if runner.running then
      (c, some ("service " ++ s.name ++ " already running"))
    else
      let c := { c with
        runContexts := updateRC c.runContexts s.name (fun rc => { rc with running := true }) }
      let c := { c with runLaunched := c.runLaunched ++ [s.name] }
      (c, none)

/-- The body of the goroutine launched by `Container.runOne`, executed when the
service's `Run` returns: record the result, flip `running`, close `done`, and
on a failure call `Container.StopAll`. -/
def Container.completeRun (c : Container) (s : serviceInfo) : Container × Res Unit :=
  let runErr := s.service.runErr
  let c := { c with
    runContexts := updateRC c.runContexts s.name
      (fun rc => { rc with err := runErr, running := false, doneSignaled := true }) }
  if runErr.isSome then
    c.StopAll
  else
    (c, Res.ok ())

/-- The Init loop of `Container.StartAll` (early return on the first error). -/
def Container.initLoop (c : Container) : List serviceInfo → Container × Option Err
  | [] => (c, none)
  | s :: rest =>
    match c.initOne s with
    | (c', none) => c'.initLoop rest
    | (c', some e) => (c', some e)

/-- The Run-launch loop of `Container.StartAll` (early return on the first
error). -/
def Container.runLoop (c : Container) : List serviceInfo → Container × Option Err
  | [] => (c, none)
  | s :: rest =>
    match c.runOne s with
    | (c', none) => c'.runLoop rest
    | (c', some e) => (c', some e)

/-- service.go `Container.StartAll`: panic if already started; assign the run
context and its cancel function; run the Init loop then the Run-launch loop,
calling `StopAll` and returning the error on any failure. -/
def Container.StartAll (c : Container) : Container × Res (Option Err) :=
  if c.runCtxSet then
    (c, Res.panic "Container.StartAll can only be called once")
  else
    let c := { c with runCtxSet := true, runCtxCancelSet := true }
    match c.initLoop c.services with
    | (c, some e) =>
      match c.StopAll with
      | (c, Res.ok _) => (c, Res.ok (some e))
      | (c, Res.panic m) => (c, Res.panic m)
    | (c, none) =>
      match c.runLoop c.services with
      | (c, some e) =>
        match c.StopAll with
        | (c, Res.ok _) => (c, Res.ok (some e))
        | (c, Res.panic m) => (c, Res.panic m)
      | (c, none) => (c, Res.ok none)

/-- service.go `runContext.wait`: the receive returns immediately iff the
record is not running or `done` is signaled. -/
def runContext.waitReturns (rc : runContext) : Bool :=
  !rc.running || rc.doneSignaled

/-- Termination condition of `Container.WaitAllStoppedTimeout`'s blocking
receive: the deadline context fires (only when `timeout ≠ 0`) or every
record's `wait` has returned and the countdown cancels the context. -/
def Container.waitCanReturn (c : Container) (timeout : Nat) : Bool :=
  timeout != 0 || c.runContexts.all (fun p => p.2.waitReturns)

/-- service.go `Container.WaitAllStoppedTimeout`: panic if `StartAll` has not
run; otherwise block (per-record waits joined by a countdown, raced against the
deadline) and return with the container state untouched — waiting itself never
cancels or mutates any Run Record. -/
def Container.WaitAllStoppedTimeout (c : Container) (timeout : Nat) : Container × Res Unit :=
  if !c.runCtxCancelSet then
    (c, Res.panic "call Container.StartAll() before WaitAllStopped()")
  else
    (c, Res.ok ())

/-- service.go `Container.RunningCount`. -/
def Container.RunningCount (c : Container) : Nat :=
  c.runContexts.countP (fun p => p.2.running)

/-- service.go `Container.ServiceErrors`: every record with a non-nil terminal
error, keyed by its service's name. -/
def Container.ServiceErrors (c : Container) : List (String × Err) :=
  c.runContexts.filterMap (fun p => p.2.err.map (fun e => (p.2.service.name, e)))

/-- A container as it stands after the registration phase: `Register` only
appends to `services`, every other field still has its `NewContainer` value. -/
def freshContainer (svcs : List serviceInfo) : Container :=
  { NewContainer with services := svcs }

/-! ### Association-list lemmas -/

theorem lookupRC_eq_none_iff (m : List (String × runContext)) (n : String) :
    lookupRC m n = none ↔ ∀ p ∈ m, p.1 ≠ n := by
  induction m with
  | nil => simp [lookupRC]
  | cons p rest ih =>
    by_cases h : p.1 = n <;> simp [lookupRC, h, ih]

theorem lookupRC_append_of_none {m₁ : List (String × runContext)} (m₂ : List (String × runContext))
    {n : String} (h : lookupRC m₁ n = none) :
    lookupRC (m₁ ++ m₂) n = lookupRC m₂ n := by
  induction m₁ with
  | nil => simp
  | cons p rest ih =>
    simp only [lookupRC] at h ⊢
    by_cases hp : p.1 = n
    · simp [hp] at h
    · simp only [hp, if_false] at h ⊢
      exact ih h

theorem lookupRC_map_eq_none {l : List serviceInfo} {n : String}
    (g : serviceInfo → runContext) (h : ∀ s ∈ l, s.name ≠ n) :
    lookupRC (l.map (fun s => (s.name, g s))) n = none := by
  rw [lookupRC_eq_none_iff]
  intro p hp
  rcases List.mem_map.mp hp with ⟨s, hs, rfl⟩
  exact h s hs

theorem updateRC_append (m₁ m₂ : List (String × runContext)) (n : String)
    (f : runContext → runContext) :
    updateRC (m₁ ++ m₂) n f = updateRC m₁ n f ++ updateRC m₂ n f := by
  simp [updateRC]

theorem updateRC_of_not_mem {m : List (String × runContext)} {n : String}
    (f : runContext → runContext) (h : ∀ p ∈ m, p.1 ≠ n) :
    updateRC m n f = m := by
  induction m with
  | nil => rfl
  | cons p rest ih =>
    have hp : p.1 ≠ n := h p (by simp)
    simp only [updateRC, List.map_cons, if_neg hp]
    have := ih (fun q hq => h q (by simp [hq]))
    simp only [updateRC] at this
    rw [this]

theorem lookupRC_updateRC_self (m : List (String × runContext)) (n : String)
    (f : runContext → runContext) :
    lookupRC (updateRC m n f) n = (lookupRC m n).map f := by
  induction m with
  | nil => rfl
  | cons p rest ih =>
    by_cases hp : p.1 = n
    · simp [updateRC, lookupRC, hp]
    · simp only [updateRC, List.map_cons, if_neg hp, lookupRC, hp, if_false]
      exact ih

theorem lookupRC_updateRC_ne (m : List (String × runContext)) {n n' : String}
    (f : runContext → runContext) (h : n' ≠ n) :
    lookupRC (updateRC m n f) n' = lookupRC m n' := by
  induction m with
  | nil => rfl
  | cons p rest ih =>
    simp only [updateRC, List.map_cons] at ih ⊢
    by_cases hp : p.1 = n
    · have h1 : ¬ p.1 = n' := by rw [hp]; exact fun hc => h hc.symm
      rw [if_pos hp]
      simp only [lookupRC, h1, if_neg h1, if_false]
      exact ih
    · rw [if_neg hp]
      simp only [lookupRC]
      by_cases hp' : p.1 = n'
      · rw [if_pos hp', if_pos hp']
      · rw [if_neg hp', if_neg hp']
        exact ih

/-! ### Step lemmas for `initOne` and `runOne` -/

theorem initOne_ok_noInit {c : Container} {s : serviceInfo}
    (hfresh : lookupRC c.runContexts s.name = none) (hni : s.service.hasInit = false) :
    c.initOne s =
      ({ c with runContexts := c.runContexts ++ [(s.name, newRunContext s)] }, none) := by
  simp [Container.initOne, hfresh, hni]

theorem initOne_ok_init {c : Container} {s : serviceInfo}
    (hfresh : lookupRC c.runContexts s.name = none) (hi : s.service.hasInit = true)
    (hok : s.service.initErr = none) :
    c.initOne s =
      ({ c with runContexts := c.runContexts ++ [(s.name, newRunContext s)],
                initInvoked := c.initInvoked ++ [s.name] }, none) := by
  simp [Container.initOne, hfresh, hi, hok]

theorem initOne_fail {c : Container} {s : serviceInfo} {cause : Err}
    (hfresh : lookupRC c.runContexts s.name = none) (hi : s.service.hasInit = true)
    (herr : s.service.initErr = some cause) :
    c.initOne s =
      ({ c with
          runContexts := c.runContexts
            ++ [(s.name, { newRunContext s with doneSignaled := true })],
          initInvoked := c.initInvoked ++ [s.name] },
       some ("failed to init service " ++ s.name ++ ": " ++ cause)) := by
  have hkeys : ∀ p ∈ c.runContexts, p.1 ≠ s.name := (lookupRC_eq_none_iff _ _).mp hfresh
  simp only [Container.initOne, hfresh, Option.isSome_none, Bool.false_eq_true, if_false, hi,
    if_true, herr]
  rw [updateRC_append _ _ _ _, updateRC_of_not_mem _ hkeys]
  simp [updateRC, newRunContext]

theorem runOne_ok {c : Container} {s : serviceInfo} {rc : runContext}
    (hrc : lookupRC c.runContexts s.name = some rc) (hnr : rc.running = false) :
    c.runOne s =
      ({ c with
          runContexts := updateRC c.runContexts s.name (fun rc => { rc with running := true }),
          runLaunched := c.runLaunched ++ [s.name] }, none) := by
  simp [Container.runOne, hrc, hnr]

/-! ### Loop lemmas -/

theorem initLoop_append (xs ys : List serviceInfo) (c : Container) :
    c.initLoop (xs ++ ys) =
      match c.initLoop xs with
      | (c', none) => c'.initLoop ys
      | (c', some e) => (c', some e) := by
  induction xs generalizing c with
  | nil => simp [Container.initLoop]
  | cons s rest ih =>
    simp only [List.cons_append, Container.initLoop]
    rcases h : c.initOne s with ⟨c', r⟩
    cases r with
    | none => simp [ih c']
    | some e => simp

theorem initLoop_ok (svcs : List serviceInfo) : ∀ c : Container,
    (∀ s ∈ svcs, lookupRC c.runContexts s.name = none) →
    svcs.Pairwise (fun a b => a.name ≠ b.name) →
    (∀ s ∈ svcs, s.service.hasInit = true → s.service.initErr = none) →
    c.initLoop svcs =
      ({ c with
          runContexts := c.runContexts ++ svcs.map (fun s => (s.name, newRunContext s)),
          initInvoked := c.initInvoked
            ++ (svcs.filter (fun s => s.service.hasInit)).map serviceInfo.name },
       none) := by
  induction svcs with
  | nil =>
    intro c _ _ _
    simp [Container.initLoop]
  | cons s rest ih =>
    intro c hfresh hpair hok
    have hs : lookupRC c.runContexts s.name = none := hfresh s (by simp)
    have hpair1 : ∀ b ∈ rest, s.name ≠ b.name := (List.pairwise_cons.mp hpair).1
    have hpair2 : rest.Pairwise (fun a b => a.name ≠ b.name) := (List.pairwise_cons.mp hpair).2
    have hfresh1 : ∀ s1 ∈ rest,
        lookupRC (c.runContexts ++ [(s.name, newRunContext s)]) s1.name = none := by
      intro s1 hs1
      rw [lookupRC_append_of_none _ (hfresh s1 (by simp [hs1]))]
      simp [lookupRC, hpair1 s1 hs1]
    have hok1 : ∀ s1 ∈ rest, s1.service.hasInit = true → s1.service.initErr = none :=
      fun s1 hs1 => hok s1 (by simp [hs1])
    cases hInit : s.service.hasInit with
    | true =>
      have hie : s.service.initErr = none := hok s (by simp) hInit
      have step := initOne_ok_init hs hInit hie
      simp only [Container.initLoop, step]
      rw [ih _ hfresh1 hpair2 hok1]
      simp [List.append_assoc, List.filter_cons, hInit]
    | false =>
      have step := initOne_ok_noInit hs hInit
      simp only [Container.initLoop, step]
      rw [ih _ hfresh1 hpair2 hok1]
      simp [List.append_assoc, List.filter_cons, hInit]

theorem runLoop_ok (svcs : List serviceInfo) :
    ∀ (c : Container) (m₁ : List (String × runContext)),
    c.runContexts = m₁ ++ svcs.map (fun s => (s.name, newRunContext s)) →
    (∀ s ∈ svcs, lookupRC m₁ s.name = none) →
    svcs.Pairwise (fun a b => a.name ≠ b.name) →
    c.runLoop svcs =
      ({ c with
          runContexts := m₁
            ++ svcs.map (fun s => (s.name, { newRunContext s with running := true })),
          runLaunched := c.runLaunched ++ svcs.map serviceInfo.name },
       none) := by
  induction svcs with
  | nil =>
    intro c m₁ hm _ _
    simp only [List.map_nil, List.append_nil] at hm ⊢
    rw [← hm]
    simp [Container.runLoop]
  | cons s rest ih =>
    intro c m₁ hm hfresh hpair
    have hkeys : ∀ p ∈ m₁, p.1 ≠ s.name := (lookupRC_eq_none_iff _ _).mp (hfresh s (by simp))
    have hpair1 : ∀ b ∈ rest, s.name ≠ b.name := (List.pairwise_cons.mp hpair).1
    have hpair2 : rest.Pairwise (fun a b => a.name ≠ b.name) := (List.pairwise_cons.mp hpair).2
    have hrc : lookupRC c.runContexts s.name = some (newRunContext s) := by
      rw [hm, lookupRC_append_of_none _ (hfresh s (by simp))]
      simp [lookupRC]
    have step := runOne_ok hrc (by simp [newRunContext])
    have hupd : updateRC c.runContexts s.name (fun rc => { rc with running := true })
        = (m₁ ++ [(s.name, { newRunContext s with running := true })])
          ++ rest.map (fun s => (s.name, newRunContext s)) := by
      rw [hm, List.map_cons, updateRC_append, updateRC_of_not_mem _ hkeys]
      have hrest : updateRC (rest.map (fun s => (s.name, newRunContext s))) s.name
          (fun rc => { rc with running := true })
          = rest.map (fun s => (s.name, newRunContext s)) := by
        apply updateRC_of_not_mem
        intro p hp
        rcases List.mem_map.mp hp with ⟨s1, hs1, rfl⟩
        exact fun hc => (hpair1 s1 hs1) hc.symm
      simp only [updateRC, List.map_cons, if_pos rfl] at hrest ⊢
      rw [hrest]
      simp [List.append_assoc]
    have hfresh1 : ∀ s1 ∈ rest,
        lookupRC (m₁ ++ [(s.name, { newRunContext s with running := true })]) s1.name = none := by
      intro s1 hs1
      rw [lookupRC_append_of_none _ (hfresh s1 (by simp [hs1]))]
      simp [lookupRC, hpair1 s1 hs1]
    simp only [Container.runLoop, step, hupd]
    rw [ih _ _ rfl hfresh1 hpair2]
    simp [List.append_assoc]

/-! ### Frame lemmas for `StopAll` and `completeRun` -/

theorem StopAll_runContexts (c : Container) : (c.StopAll).1.runContexts = c.runContexts := by
  unfold Container.StopAll
  split <;> rfl

theorem StopAll_runCtxCancelSet (c : Container) :
    (c.StopAll).1.runCtxCancelSet = c.runCtxCancelSet := by
  unfold Container.StopAll
  split <;> rfl

theorem StopAll_dup (c : Container) :
    (c.StopAll).1.dupRunContextHit = c.dupRunContextHit := by
  unfold Container.StopAll
  split <;> rfl

theorem completeRun_runContexts (c : Container) (s : serviceInfo) :
    (c.completeRun s).1.runContexts =
      updateRC c.runContexts s.name
        (fun rc => { rc with err := s.service.runErr, running := false, doneSignaled := true }) := by
  unfold Container.completeRun
  dsimp only
  split
  · rw [StopAll_runContexts]
  · rfl

theorem completeRun_lookup_self {c : Container} {s : serviceInfo} {rc : runContext}
    (h : lookupRC c.runContexts s.name = some rc) :
    lookupRC (c.completeRun s).1.runContexts s.name =
      some { rc with err := s.service.runErr, running := false, doneSignaled := true } := by
  rw [completeRun_runContexts, lookupRC_updateRC_self, h]
  rfl

theorem completeRun_fail {c : Container} {s : serviceInfo} {e : Err}
    (he : s.service.runErr = some e) (hcs : c.runCtxCancelSet = true) :
    c.completeRun s =
      ({ c with
          runContexts := updateRC c.runContexts s.name
            (fun rc => { rc with err := some e, running := false, doneSignaled := true }),
          cancelled := true },
       Res.ok ()) := by
  simp [Container.completeRun, he, Container.StopAll, hcs]

theorem completeRun_succeed {c : Container} {s : serviceInfo}
    (he : s.service.runErr = none) :
    c.completeRun s =
      ({ c with
          runContexts := updateRC c.runContexts s.name
            (fun rc => { rc with err := none, running := false, doneSignaled := true }) },
       Res.ok ()) := by
  simp [Container.completeRun, he]

/-! ### `StartAll` characterizations -/

theorem StartAll_allOk (svcs : List serviceInfo)
    (hnd : (svcs.map serviceInfo.name).Nodup)
    (hok : ∀ s ∈ svcs, s.service.hasInit = true → s.service.initErr = none) :
    (freshContainer svcs).StartAll =
      ({ runCtxSet := true, runCtxCancelSet := true, cancelled := false,
         services := svcs,
         runContexts := svcs.map (fun s => (s.name, { newRunContext s with running := true })),
         initInvoked := (svcs.filter (fun s => s.service.hasInit)).map serviceInfo.name,
         runLaunched := svcs.map serviceInfo.name,
         dupRunContextHit := false },
       Res.ok none) := by
  have hpair : svcs.Pairwise (fun a b => a.name ≠ b.name) := List.pairwise_map.mp hnd
  have key := initLoop_ok svcs
    { runCtxSet := true, runCtxCancelSet := true, cancelled := false, services := svcs,
      runContexts := [], initInvoked := [], runLaunched := [], dupRunContextHit := false }
    (fun s _ => rfl) hpair hok
  have key2 := runLoop_ok svcs
    { runCtxSet := true, runCtxCancelSet := true, cancelled := false, services := svcs,
      runContexts := svcs.map (fun s => (s.name, newRunContext s)),
      initInvoked := (svcs.filter (fun s => s.service.hasInit)).map serviceInfo.name,
      runLaunched := [], dupRunContextHit := false }
    [] rfl (fun s _ => rfl) hpair
  simp only [Container.StartAll, freshContainer, NewContainer, Bool.false_eq_true, if_false]
  rw [key]
  simp only [List.nil_append]
  rw [key2]
  simp

theorem StartAll_initFail (pre post : List serviceInfo) (sk : serviceInfo) (cause : Err)
    (hnd : ((pre ++ sk :: post).map serviceInfo.name).Nodup)
    (hpre : ∀ s ∈ pre, s.service.hasInit = true → s.service.initErr = none)
    (hki : sk.service.hasInit = true) (hke : sk.service.initErr = some cause) :
    (freshContainer (pre ++ sk :: post)).StartAll =
      ({ runCtxSet := true, runCtxCancelSet := true, cancelled := true,
         services := pre ++ sk :: post,
         runContexts := pre.map (fun s => (s.name, newRunContext s))
           ++ [(sk.name, { newRunContext sk with doneSignaled := true })],
         initInvoked := (pre.filter (fun s => s.service.hasInit)).map serviceInfo.name
           ++ [sk.name],
         runLaunched := [],
         dupRunContextHit := false },
       Res.ok (some ("failed to init service " ++ sk.name ++ ": " ++ cause))) := by
  rw [List.map_append, List.map_cons] at hnd
  rcases List.nodup_append.mp hnd with ⟨hnd1, _, hdisj⟩
  have hpair : pre.Pairwise (fun a b => a.name ≠ b.name) := List.pairwise_map.mp hnd1
  have hskpre : ∀ s ∈ pre, s.name ≠ sk.name := by
    intro s hs hc
    exact hdisj (List.mem_map_of_mem serviceInfo.name hs) (by simp [hc])
  have key := initLoop_ok pre
    { runCtxSet := true, runCtxCancelSet := true, cancelled := false,
      services := pre ++ sk :: post,
      runContexts := [], initInvoked := [], runLaunched := [], dupRunContextHit := false }
    (fun s _ => rfl) hpair hpre
  have hlk : lookupRC (pre.map (fun s => (s.name, newRunContext s))) sk.name = none :=
    lookupRC_map_eq_none newRunContext hskpre
  have key2 := initOne_fail (c :=
    { runCtxSet := true, runCtxCancelSet := true, cancelled := false,
      services := pre ++ sk :: post,
      runContexts := pre.map (fun s => (s.name, newRunContext s)),
      initInvoked := (pre.filter (fun s => s.service.hasInit)).map serviceInfo.name,
      runLaunched := [], dupRunContextHit := false }) hlk hki hke
  simp only [Container.StartAll, freshContainer, NewContainer, Bool.false_eq_true, if_false]
  rw [initLoop_append]
  rw [key]
  simp only [List.nil_append, Container.initLoop]
  rw [key2]
  simp [Container.StopAll]

/-! ### The defensive duplicate branch is never taken from a fresh container -/

theorem runLoop_dup (svcs : List serviceInfo) : ∀ c : Container,
    ((c.runLoop svcs).1).dupRunContextHit = c.dupRunContextHit := by
  induction svcs with
  | nil => intro c; rfl
  | cons s rest ih =>
    intro c
    simp only [Container.runLoop, Container.runOne]
    rcases h : lookupRC c.runContexts s.name with _ | rc
    · rfl
    · by_cases hr : rc.running = true
      · simp [hr]
      · simp only [Bool.not_eq_true] at hr
        simp [hr, ih]

theorem initLoop_no_dup (svcs : List serviceInfo) : ∀ c : Container,
    (∀ s ∈ svcs, lookupRC c.runContexts s.name = none) →
    svcs.Pairwise (fun a b => a.name ≠ b.name) →
    ((c.initLoop svcs).1).dupRunContextHit = c.dupRunContextHit := by
  induction svcs with
  | nil => intro c _ _; rfl
  | cons s rest ih =>
    intro c hfresh hpair
    have hs : lookupRC c.runContexts s.name = none := hfresh s (by simp)
    have hpair1 : ∀ b ∈ rest, s.name ≠ b.name := (List.pairwise_cons.mp hpair).1
    have hpair2 : rest.Pairwise (fun a b => a.name ≠ b.name) := (List.pairwise_cons.mp hpair).2
    have hfresh1 : ∀ (e : String × runContext) (s1 : serviceInfo), s1 ∈ rest → e.1 = s.name →
        lookupRC (c.runContexts ++ [e]) s1.name = none := by
      intro e s1 hs1 he
      rw [lookupRC_append_of_none _ (hfresh s1 (by simp [hs1]))]
      simp [lookupRC, he, hpair1 s1 hs1]
    cases hInit : s.service.hasInit with
    | true =>
      rcases hie : s.service.initErr with _ | cause
      · have step := initOne_ok_init hs hInit hie
        simp only [Container.initLoop, step]
        exact ih _ (fun s1 hs1 => hfresh1 _ s1 hs1 rfl) hpair2
      · have step := initOne_fail hs hInit hie
        simp only [Container.initLoop, step]
    | false =>
      have step := initOne_ok_noInit hs hInit
      simp only [Container.initLoop, step]
      exact ih _ (fun s1 hs1 => hfresh1 _ s1 hs1 rfl) hpair2

/-! ### Concrete example data for witnesses and counterexamples -/

/-- Example service with a succeeding `Init` and a clean `Run`. -/
def exSvc1 : serviceInfo := ⟨"s1", ⟨"s1", true, none, none⟩⟩

/-- Example service whose `Init` fails with cause x. -/
def exSvc2 : serviceInfo := ⟨"s2", ⟨"s2", true, some "x", none⟩⟩

/-- Example service without `Initer` whose `Run` fails with boom. -/
def exSvc3 : serviceInfo := ⟨"s3", ⟨"s3", false, none, some "boom"⟩⟩

/-- Example service without `Initer` with a clean `Run`. -/
def exSvc4 : serviceInfo := ⟨"s4", ⟨"s4", false, none, none⟩⟩

/-- A started container holding running records for `exSvc3` and `exSvc4`. -/
def exStarted : Container :=
  ⟨true, true, false, [exSvc3, exSvc4],
   [("s3", ⟨exSvc3, true, false, none⟩), ("s4", ⟨exSvc4, true, false, none⟩)],
   [], ["s3", "s4"], false⟩

/-- A container with one service named A registered. -/
def exRegA : Container :=
  ⟨false, false, false, [⟨"A", ⟨"A", false, none, none⟩⟩], [], [], [], false⟩

/-- An artificial pre-start state whose `runContexts` map already holds a
record under A even though `StartAll` has not run: only such an unreachable
state can drive `initOne` into its defensive duplicate branch. -/
def exDupState : Container :=
  ⟨false, false, false, [⟨"A", ⟨"A", false, none, none⟩⟩],
   [("A", newRunContext ⟨"A", ⟨"A", false, none, none⟩⟩)], [], [], false⟩

/-! ### Claim theorems -/

/-- C5: if the registry already holds exactly one entry under a resolved name,
registering a second service that resolves to the same name panics (a
configuration fault, not a recoverable result) and leaves the registry
unchanged: it still holds exactly one entry under that name and no entry was
added or removed. -/
theorem claim_C5 (c : Container) (r : RunnerModel)
    (hone : c.services.countP (fun s => s.name = r.name) = 1) :
    c.Register r = (c, Res.panic ("Service " ++ r.name ++ " already registered"))
    ∧ (c.Register r).1.services.countP (fun s => s.name = r.name) = 1
    ∧ (c.Register r).1.services = c.services := by
  have hpos : 0 < c.services.countP (fun s => s.name = r.name) := by omega
  have hex := List.countP_pos_iff.mp hpos
  have hany : c.services.any (fun s => s.name = r.name) = true := by
    rw [List.any_eq_true]
    rcases hex with ⟨s, hs, hname⟩
    exact ⟨s, hs, hname⟩
  refine ⟨?_, ?_, ?_⟩ <;> simp [Container.Register, hany, hone]

/-- C5 witness: a container already holding one service named A rejects a
second registration resolving to A by panicking, with the registry
untouched. -/
theorem claim_C5_witness :
    exRegA.Register ⟨"A", true, none, none⟩
      = (exRegA, Res.panic "Service A already registered")
    ∧ (exRegA.Register ⟨"A", true, none, none⟩).1.services.countP
        (fun s => s.name = "A") = 1
    ∧ (exRegA.Register ⟨"A", true, none, none⟩).1.services = exRegA.services :=
  claim_C5 exRegA ⟨"A", true, none, none⟩ (by decide)

/-- C7: calling `StartAll` a second time (the run context is already set),
calling `StopAll` before `StartAll`, or calling `WaitAllStoppedTimeout` before
`StartAll` (the cancel function is still nil) each panics immediately, and the
returned container is exactly the argument: the fatal check fires before any
state of that call is modified. -/
theorem claim_C7 (c : Container) (d : Nat) :
    (c.runCtxSet = true →
      c.StartAll = (c, Res.panic "Container.StartAll can only be called once"))
    ∧ (c.runCtxCancelSet = false →
      c.StopAll = (c, Res.panic "call Container.StartAll() before StopAll()"))
    ∧ (c.runCtxCancelSet = false →
      c.WaitAllStoppedTimeout d
        = (c, Res.panic "call Container.StartAll() before WaitAllStopped()")) := by
  refine ⟨fun h => ?_, fun h => ?_, fun h => ?_⟩
  · simp [Container.StartAll, h]
  · simp [Container.StopAll, h]
  · simp [Container.WaitAllStoppedTimeout, h]

/-- C7 witness: on a container whose run context is set but whose cancel
function is nil, all three misuse panics fire with the state unmodified. -/
theorem claim_C7_witness :
    (Container.StartAll ⟨true, false, false, [], [], [], [], false⟩
      = (⟨true, false, false, [], [], [], [], false⟩,
         Res.panic "Container.StartAll can only be called once"))
    ∧ (Container.StopAll ⟨true, false, false, [], [], [], [], false⟩
      = (⟨true, false, false, [], [], [], [], false⟩,
         Res.panic "call Container.StartAll() before StopAll()"))
    ∧ (Container.WaitAllStoppedTimeout ⟨true, false, false, [], [], [], [], false⟩ 5
      = (⟨true, false, false, [], [], [], [], false⟩,
         Res.panic "call Container.StartAll() before WaitAllStopped()")) :=
  ⟨(claim_C7 ⟨true, false, false, [], [], [], [], false⟩ 5).1 rfl,
   (claim_C7 ⟨true, false, false, [], [], [], [], false⟩ 5).2.1 rfl,
   (claim_C7 ⟨true, false, false, [], [], [], [], false⟩ 5).2.2 rfl⟩

/-- C10: `Default` is idempotent across sequential calls: on an unset global it
creates and stores a fresh container, and on the global state left behind by
any call (including every later mutation of the shared instance written back to
the global) it returns exactly the stored instance without replacing it, so
registrations made through `Default` accumulate in one shared container. -/
theorem claim_C10 :
    Default none = (some NewContainer, NewContainer)
    ∧ ∀ g : Option Container, Default (Default g).1 = ((Default g).1, (Default g).2) := by
  refine ⟨rfl, fun g => ?_⟩
  cases g <;> rfl

/-- C6: on a started container with a positive timeout, the wait returns with
the container state untouched (the Cancellation Signal is never triggered by
waiting and still-running services are left running); the modelled unblocking
condition holds regardless of completion state because the deadline context
fires at `d`; if some launched service has not completed, `RunningCount` is
positive afterward; and with a zero timeout the unblocking condition is exactly
that every Run Record's wait has returned, i.e. the wait blocks until all
completions are signaled. -/
theorem claim_C6 (c : Container) (d : Nat)
    (hstart : c.runCtxCancelSet = true) (hd : d ≠ 0) :
    c.WaitAllStoppedTimeout d = (c, Res.ok ())
    ∧ c.waitCanReturn d = true
    ∧ ((∃ p ∈ c.runContexts, p.2.running = true) → 0 < c.RunningCount)
    ∧ c.waitCanReturn 0 = c.runContexts.all (fun p => p.2.waitReturns) := by
  refine ⟨?_, ?_, ?_, ?_⟩
  · simp [Container.WaitAllStoppedTimeout, hstart]
  · simp [Container.waitCanReturn, hd]
  · intro hex
    rcases hex with ⟨p, hp, hrun⟩
    exact List.countP_pos_iff.mpr ⟨p, hp, by simp [hrun]⟩
  · simp [Container.waitCanReturn]

/-- C6 witness: a started container with two still-running records; with
timeout 5 the wait returns leaving them running and `RunningCount` positive;
with timeout 0 the unblocking condition reduces to all records having
signaled. -/
theorem claim_C6_witness :
    exStarted.WaitAllStoppedTimeout 5 = (exStarted, Res.ok ())
    ∧ exStarted.waitCanReturn 5 = true
    ∧ ((∃ p ∈ exStarted.runContexts, p.2.running = true) → 0 < exStarted.RunningCount)
    ∧ exStarted.waitCanReturn 0 = exStarted.runContexts.all (fun p => p.2.waitReturns) :=
  claim_C6 exStarted 5 rfl (by decide)

/-- C2: when a launched service's `Run` returns a non-nil error, the completing
unit records the error in its Run Record, sets `running` to false, signals
completion (the record's completion flag, previously the only writer's to set,
becomes true — the `done` channel is closed exactly once, by this unit), and
triggers the shared Cancellation Signal; consequently every other
still-running service is cancelled and, once its own `Run` returns as the
contract requires, its completion step leaves it in a terminal state
(`running` false, completion signaled) without any explicit `StopAll` call. -/
theorem claim_C2 (c : Container) (s : serviceInfo) (rc : runContext) (e : Err)
    (he : s.service.runErr = some e)
    (hrc : lookupRC c.runContexts s.name = some rc)
    (hstart : c.runCtxCancelSet = true) :
    (c.completeRun s).2 = Res.ok ()
    ∧ lookupRC (c.completeRun s).1.runContexts s.name
        = some ⟨rc.service, false, true, some e⟩
    ∧ (c.completeRun s).1.cancelled = true
    ∧ ∀ (s' : serviceInfo) (rc' : runContext),
        lookupRC (c.completeRun s).1.runContexts s'.name = some rc' →
        lookupRC ((c.completeRun s).1.completeRun s').1.runContexts s'.name
          = some ⟨rc'.service, false, true, s'.service.runErr⟩ := by
  have hfail := completeRun_fail he hstart
  refine ⟨?_, ?_, ?_, ?_⟩
  · rw [hfail]
  · rw [completeRun_lookup_self hrc, he]
  · rw [hfail]
  · intro s' rc' hrc'
    rw [completeRun_lookup_self hrc']

/-- C2 witness: in a started container where s3's `Run` returns boom while s4
is still running, the completion of s3 records the error, terminates s3's
record, triggers cancellation, and s4's subsequent completion reaches terminal
state. -/
theorem claim_C2_witness :
    (exStarted.completeRun exSvc3).2 = Res.ok ()
    ∧ lookupRC (exStarted.completeRun exSvc3).1.runContexts "s3"
        = some ⟨exSvc3, false, true, some "boom"⟩
    ∧ (exStarted.completeRun exSvc3).1.cancelled = true
    ∧ ∀ (s' : serviceInfo) (rc' : runContext),
        lookupRC (exStarted.completeRun exSvc3).1.runContexts s'.name = some rc' →
        lookupRC ((exStarted.completeRun exSvc3).1.completeRun s').1.runContexts s'.name
          = some ⟨rc'.service, false, true, s'.service.runErr⟩ :=
  claim_C2 exStarted exSvc3 ⟨exSvc3, true, false, none⟩ "boom" rfl rfl rfl

/-- C9: when a launched service's `Run` returns nil, its completion updates
only its own Run Record (terminal error nil, `running` false, completion
signaled), does not trigger the Cancellation Signal, leaves every other
record — in particular every still-running service — unchanged, and leaves the
registry unchanged. -/
theorem claim_C9 (c : Container) (s : serviceInfo) (rc : runContext)
    (he : s.service.runErr = none)
    (hrc : lookupRC c.runContexts s.name = some rc) :
    (c.completeRun s).2 = Res.ok ()
    ∧ lookupRC (c.completeRun s).1.runContexts s.name
        = some ⟨rc.service, false, true, none⟩
    ∧ (c.completeRun s).1.cancelled = c.cancelled
    ∧ (∀ n, n ≠ s.name →
        lookupRC (c.completeRun s).1.runContexts n = lookupRC c.runContexts n)
    ∧ (c.completeRun s).1.services = c.services := by
  have hok := completeRun_succeed (c := c) he
  refine ⟨?_, ?_, ?_, ?_, ?_⟩
  · rw [hok]
  · rw [completeRun_lookup_self hrc, he]
  · rw [hok]
  · intro n hn
    rw [completeRun_runContexts, lookupRC_updateRC_ne _ _ hn]
  · rw [hok]

/-- C9 witness: s4's clean completion in a started container terminates only
s4's record, leaves the cancellation flag untouched, and leaves s3's record
running. -/
theorem claim_C9_witness :
    (exStarted.completeRun exSvc4).2 = Res.ok ()
    ∧ lookupRC (exStarted.completeRun exSvc4).1.runContexts "s4"
        = some ⟨exSvc4, false, true, none⟩
    ∧ (exStarted.completeRun exSvc4).1.cancelled = exStarted.cancelled
    ∧ (∀ n, n ≠ "s4" →
        lookupRC (exStarted.completeRun exSvc4).1.runContexts n
          = lookupRC exStarted.runContexts n)
    ∧ (exStarted.completeRun exSvc4).1.services = exStarted.services :=
  claim_C9 exStarted exSvc4 ⟨exSvc4, true, false, none⟩ rfl rfl

/-- C1: starting a fresh container whose k-th registered service fails Init
(registered names unique, earlier Inits succeeding) invokes Init exactly for
the Initer-capable services among 1..k in registration order, launches Run for
no service, synthesizes an error-free signaled completion on the k-th Run
Record, triggers the Cancellation Signal, and returns an error that names the
k-th service and wraps the underlying cause. -/
theorem claim_C1 (pre post : List serviceInfo) (sk : serviceInfo) (cause : Err)
    (hnd : ((pre ++ sk :: post).map serviceInfo.name).Nodup)
    (hpre : ∀ s ∈ pre, s.service.hasInit = true → s.service.initErr = none)
    (hki : sk.service.hasInit = true) (hke : sk.service.initErr = some cause) :
    (freshContainer (pre ++ sk :: post)).StartAll.2
        = Res.ok (some ("failed to init service " ++ sk.name ++ ": " ++ cause))
    ∧ (freshContainer (pre ++ sk :: post)).StartAll.1.initInvoked
        = (pre.filter (fun s => s.service.hasInit)).map serviceInfo.name ++ [sk.name]
    ∧ (freshContainer (pre ++ sk :: post)).StartAll.1.runLaunched = []
    ∧ (freshContainer (pre ++ sk :: post)).StartAll.1.cancelled = true
    ∧ lookupRC (freshContainer (pre ++ sk :: post)).StartAll.1.runContexts sk.name
        = some ⟨sk, false, true, none⟩ := by
  have hnd2 := hnd
  rw [List.map_append, List.map_cons] at hnd2
  rcases List.nodup_append.mp hnd2 with ⟨_, _, hdisj⟩
  have hskpre : ∀ s ∈ pre, s.name ≠ sk.name := by
    intro s hs hc
    exact hdisj (List.mem_map_of_mem serviceInfo.name hs) (by simp [hc])
  have key := StartAll_initFail pre post sk cause hnd hpre hki hke
  refine ⟨by rw [key], by rw [key], by rw [key], by rw [key], ?_⟩
  rw [key]
  show lookupRC (pre.map (fun s => (s.name, newRunContext s))
      ++ [(sk.name, { newRunContext sk with doneSignaled := true })]) sk.name = _
  rw [lookupRC_append_of_none _ (lookupRC_map_eq_none newRunContext hskpre)]
  simp [lookupRC, newRunContext]

/-- C1 witness: services s1, s2, s3 in order with s2's Init failing with x:
`StartAll` returns the wrapped error naming s2, Init ran for s1 and s2 only,
no Run was launched, the signal is triggered, and s2's record is signaled with
a nil error. -/
theorem claim_C1_witness :
    (freshContainer [exSvc1, exSvc2, exSvc3]).StartAll.2
        = Res.ok (some "failed to init service s2: x")
    ∧ (freshContainer [exSvc1, exSvc2, exSvc3]).StartAll.1.initInvoked = ["s1", "s2"]
    ∧ (freshContainer [exSvc1, exSvc2, exSvc3]).StartAll.1.runLaunched = []
    ∧ (freshContainer [exSvc1, exSvc2, exSvc3]).StartAll.1.cancelled = true
    ∧ lookupRC (freshContainer [exSvc1, exSvc2, exSvc3]).StartAll.1.runContexts "s2"
        = some ⟨exSvc2, false, true, none⟩ :=
  claim_C1 [exSvc1] [exSvc3] exSvc2 "x" (by decide) (by decide) rfl rfl

/-- C4: starting a fresh container with unique names in which every Initer's
Init succeeds returns a nil error after completing the Init loop and the
Run-launch loop (Run is launched for every service in registration order);
since the services' Run results are unconstrained here, no Run error is ever
returned synchronously from `StartAll` — Run outcomes surface only through the
Run Records read by `ServiceErrors` or waiting. -/
theorem claim_C4 (svcs : List serviceInfo)
    (hnd : (svcs.map serviceInfo.name).Nodup)
    (hok : ∀ s ∈ svcs, s.service.hasInit = true → s.service.initErr = none) :
    (freshContainer svcs).StartAll.2 = Res.ok none
    ∧ (freshContainer svcs).StartAll.1.runLaunched = svcs.map serviceInfo.name
    ∧ (freshContainer svcs).StartAll.1.initInvoked
        = (svcs.filter (fun s => s.service.hasInit)).map serviceInfo.name := by
  have key := StartAll_allOk svcs hnd hok
  exact ⟨by rw [key], by rw [key], by rw [key]⟩

/-- C4 witness: starting s1 (Init succeeds) and s3 (whose Run will fail with
boom) returns a nil error — the Run failure is not synchronous — and launches
both Runs. -/
theorem claim_C4_witness :
    (freshContainer [exSvc1, exSvc3]).StartAll.2 = Res.ok none
    ∧ (freshContainer [exSvc1, exSvc3]).StartAll.1.runLaunched = ["s1", "s3"]
    ∧ (freshContainer [exSvc1, exSvc3]).StartAll.1.initInvoked = ["s1"] :=
  claim_C4 [exSvc1, exSvc3] (by decide) (by decide)

/-- C3: `ServiceErrors` contains a name-error pair exactly when some Run Record
for that name holds that non-nil terminal error (the error field is written
only by a completing Run with its Run result, cf. `completeRun_runContexts`);
and after a `StartAll` whose k-th Init failed, `ServiceErrors` is empty — in
particular the Init-failed service never appears, its synthetic completion
having recorded no error. -/
theorem claim_C3 :
    (∀ (c : Container) (n : String) (e : Err),
        (n, e) ∈ c.ServiceErrors ↔
          ∃ p ∈ c.runContexts, p.2.service.name = n ∧ p.2.err = some e)
    ∧ ∀ (pre post : List serviceInfo) (sk : serviceInfo) (cause : Err),
        ((pre ++ sk :: post).map serviceInfo.name).Nodup →
        (∀ s ∈ pre, s.service.hasInit = true → s.service.initErr = none) →
        sk.service.hasInit = true → sk.service.initErr = some cause →
        ((freshContainer (pre ++ sk :: post)).StartAll.1).ServiceErrors = [] := by
  constructor
  · intro c n e
    simp only [Container.ServiceErrors, List.mem_filterMap]
    constructor
    · rintro ⟨p, hp, hf⟩
      rcases Option.map_eq_some'.mp hf with ⟨a, ha, hpair⟩
      have h1 : p.2.service.name = n := congrArg Prod.fst hpair
      have h2 : a = e := congrArg Prod.snd hpair
      exact ⟨p, hp, h1, by rw [ha, h2]⟩
    · rintro ⟨p, hp, hname, herr⟩
      exact ⟨p, hp, by simp [herr, hname]⟩
  · intro pre post sk cause hnd hpre hki hke
    rw [StartAll_initFail pre post sk cause hnd hpre hki hke]
    show List.filterMap _ (pre.map (fun s => (s.name, newRunContext s))
      ++ [(sk.name, { newRunContext sk with doneSignaled := true })]) = []
    rw [List.filterMap_eq_nil_iff]
    intro p hp
    rcases List.mem_append.mp hp with h | h
    · rcases List.mem_map.mp h with ⟨s, _, rfl⟩
      rfl
    · rw [List.mem_singleton] at h
      rw [h]
      rfl

/-- C3 witness: in the started container with no terminal errors, s3 maps to
boom in `ServiceErrors` iff some record holds it (here: neither side holds);
and the s1, s2-Init-fails scenario yields an empty `ServiceErrors`. -/
theorem claim_C3_witness :
    (("s3", "boom") ∈ exStarted.ServiceErrors ↔
      ∃ p ∈ exStarted.runContexts, p.2.service.name = "s3" ∧ p.2.err = some "boom")
    ∧ ((freshContainer [exSvc1, exSvc2]).StartAll.1).ServiceErrors = [] :=
  ⟨claim_C3.1 exStarted "s3" "boom",
   claim_C3.2 [exSvc1] [] exSvc2 "x" (by decide) (by decide) rfl rfl⟩

/-- C8 counterexample: in the only kind of state that can drive `initOne` into
its defensive duplicate branch (a pre-start container whose `runContexts` map
already holds a record under the descriptor's name), `StartAll` does NOT fail
fatally: the branch yields an ordinary error value which `StartAll` returns
normally (`Res.ok`, not `Res.panic`), refuting the claim that the controller
panics there. -/
theorem claim_C8_counterexample :
    (exDupState.StartAll).2 = Res.ok (some "service A already started") := by
  rfl

/-- C8 amended: if a Run Record already exists under a descriptor's name when
`initOne` processes it, the controller returns an ordinary error naming the
service (which `StartAll` propagates as its return value after triggering
cancellation) rather than aborting fatally; and for every container used only
through the documented API (a fresh container whose registered names are
unique, started once), the duplicate branch is unreachable. -/
theorem claim_C8 :
    (∀ (c : Container) (s : serviceInfo),
        (lookupRC c.runContexts s.name).isSome = true →
        c.initOne s = ({ c with dupRunContextHit := true },
          some ("service " ++ s.name ++ " already started")))
    ∧ ∀ svcs : List serviceInfo, (svcs.map serviceInfo.name).Nodup →
        ((freshContainer svcs).StartAll.1).dupRunContextHit = false := by
  constructor
  · intro c s h
    simp [Container.initOne, h]
  · intro svcs hnd
    have hpair := List.pairwise_map.mp hnd
    simp only [Container.StartAll, freshContainer, NewContainer, Bool.false_eq_true, if_false]
    rcases hil : Container.initLoop ⟨true, true, false, svcs, [], [], [], false⟩ svcs
      with ⟨c₁, r⟩
    have hdup1 : c₁.dupRunContextHit = false := by
      have hn := initLoop_no_dup svcs ⟨true, true, false, svcs, [], [], [], false⟩
        (fun s _ => rfl) hpair
      rw [hil] at hn
      exact hn
    cases r with
    | some e =>
      rcases hs : c₁.StopAll with ⟨c₂, r₂⟩
      have hdup2 : c₂.dupRunContextHit = false := by
        have hsd := StopAll_dup c₁
        rw [hs] at hsd
        rw [hsd, hdup1]
      cases r₂ <;> simp [hil, hs, hdup2]
    | none =>
      rcases hrl : c₁.runLoop c₁.services with ⟨c₂, r₂⟩
      have hdup2 : c₂.dupRunContextHit = false := by
        have hrd := runLoop_dup c₁.services c₁
        rw [hrl] at hrd
        rw [hrd, hdup1]
      cases r₂ with
      | some e =>
        rcases hs : c₂.StopAll with ⟨c₃, r₃⟩
        have hdup3 : c₃.dupRunContextHit = false := by
          have hsd := StopAll_dup c₂
          rw [hs] at hsd
          rw [hsd, hdup2]
        cases r₃ <;> simp [hil, hrl, hs, hdup3]
      | none => simp [hil, hrl, hdup2]

/-- C8 witness: the artificial duplicate state makes `initOne` return the
already-started error without panicking, and a fresh two-service start never
fires the duplicate branch. -/
theorem claim_C8_witness :
    exDupState.initOne ⟨"A", ⟨"A", false, none, none⟩⟩
      = ({ exDupState with dupRunContextHit := true }, some "service A already started")
    ∧ ((freshContainer [exSvc1, exSvc3]).StartAll.1).dupRunContextHit = false :=
  ⟨claim_C8.1 exDupState ⟨"A", ⟨"A", false, none, none⟩⟩ rfl,
   claim_C8.2 [exSvc1, exSvc3] (by decide)⟩
